import Mathlib

/-!
Verification of the wait-free SPSC triple buffer
(`src/utils/triple_buffer.rs` of the oxid-8 repository).

The shallow embedding below follows the Rust source:

* `BufferState` with `decode`/`encode` mirrors `BufferState` and its
  bit-packing (lines 192-282).
* `swapWriteNext` is the candidate state computed inside
  `TripleBuffer::swap_write_retry` (lines 469-472); `advanceNext` is the
  candidate state computed inside `TripleBuffer::try_swap_read`
  (lines 404-407).
* The CAS attempts of `try_swap_read` / `swap_write_retry` are modelled with
  an explicit environment describing, per attempt, the interference of the
  other thread on the shared word (the word it installed between our load
  and our CAS, `none` meaning no interference) together with a flag for a
  spurious `compare_exchange_weak` failure.
* `TBSys` models the whole writer/reader system (three payload slots, the
  packed word, and the two handle-local borrow counters) with sequential,
  single-threaded semantics for the guard-level scenarios.
* `PCConfig`/`PCStep` model one producer and one consumer running the
  guard protocol under an arbitrary interleaving, with ghost write stamps,
  for the temporal monotonicity property.
-/

/-- Structure `BufferState` (triple_buffer.rs lines 192-201): which slot plays which
role, plus the dirty flag. Indices are Rust `usize`, modelled as `Nat`. -/
structure BufferState where
  read_idx : Nat
  ready_idx : Nat
  write_idx : Nat
  dirty : Bool
deriving DecidableEq, Repr

/-- Constructor `BufferState::new` (lines 222-229): read=0, ready=1, write=2, clean. -/
def BufferState.new : BufferState :=
  { read_idx := 0, ready_idx := 1, write_idx := 2, dirty := false }

/-- Function `BufferState::decode` (lines 247-254): extract the three nibbles and
the dirty nibble from the packed word; dirty is the test `nibble == 1`. -/
def BufferState.decode (state : Nat) : BufferState :=
  { read_idx := state &&& 0xF
    ready_idx := (state >>> 4) &&& 0xF
    write_idx := (state >>> 8) &&& 0xF
    dirty := (state >>> 12) &&& 0xF == 1 }

/-- Function `BufferState::encode` (lines 274-281): pack the fields into a `u64`
word. The `% 2 ^ 64` reductions model the `as u64` casts and the wrapping
64-bit shifts of the Rust code. -/
def BufferState.encode (s : BufferState) : Nat :=
  (s.read_idx % 2 ^ 64) |||
    ((s.ready_idx % 2 ^ 64) <<< 4) % 2 ^ 64 |||
    ((s.write_idx % 2 ^ 64) <<< 8) % 2 ^ 64 |||
    (((if s.dirty then 1 else 0) <<< 12) % 2 ^ 64)

/-- Candidate state computed by `swap_write_retry` (lines 469-472):
swap `write_idx` and `ready_idx`, set `dirty`. -/
def swapWriteNext (s : BufferState) : BufferState :=
  { s with write_idx := s.ready_idx, ready_idx := s.write_idx, dirty := true }

/-- Candidate state computed by `try_swap_read` (lines 404-407):
swap `read_idx` and `ready_idx`, clear `dirty`. -/
def advanceNext (s : BufferState) : BufferState :=
  { s with ready_idx := s.read_idx, read_idx := s.ready_idx, dirty := false }

/-- One CAS attempt's environment: the word the other thread installed
between our load and our CAS (`none` = untouched), and whether the weak
CAS fails spuriously. -/
abbrev CasEnv := Option Nat × Bool

/-- Result of one call to `try_swap_read`: number of CAS attempts made,
the shared word afterwards, and the `BufferState` the call returns. -/
structure TryReadResult where
  attempts : Nat
  word : Nat
  state : BufferState
deriving DecidableEq, Repr

/-- Model of `TripleBuffer::try_swap_read` (lines 394-420). Load the word;
if not dirty return the decoded state without touching the word; otherwise
make a single CAS attempt toward `advanceNext`: on success install and
return the new state, on failure return the loaded state, the word holding
whatever the environment put there. -/
def trySwapReadModel (env : CasEnv) (w : Nat) : TryReadResult :=
  let current := w
  let current_state := BufferState.decode current
  if current_state.dirty = false then
    ⟨0, w, current_state⟩
  else
    let new_state := advanceNext current_state
    let new := new_state.encode
    let atCas := env.1.getD current
    if atCas = current ∧ env.2 = false then
      ⟨1, new, new_state⟩
    else
      ⟨1, atCas, current_state⟩

/-- Result of one call to `swap_write_retry`: number of CAS attempts,
whether one succeeded, the shared word afterwards, and the returned state. -/
structure SwapWriteResult where
  attempts : Nat
  succeeded : Bool
  word : Nat
  state : BufferState
deriving DecidableEq, Repr

/-- Loop body of `swap_write_retry` (lines 465-483), one iteration per unit
of fuel: load, compute `swapWriteNext`, CAS. On success install the new
word and return the new state; on failure continue with the word the
environment installed. When the fuel runs out, perform the final load of
lines 485-486 and return its decode, the word untouched by this call. -/
def swapWriteGo (env : Nat → CasEnv) : Nat → Nat → Nat → SwapWriteResult
  | 0, _, w => ⟨0, false, w, BufferState.decode w⟩
  | fuel + 1, i, w =>
    let current := w
    let current_state := BufferState.decode current
    let new_state := swapWriteNext current_state
    let new := new_state.encode
    let atCas := (env i).1.getD current
    if atCas = current ∧ (env i).2 = false then
      ⟨1, true, new, new_state⟩
    else
      let r := swapWriteGo env fuel (i + 1) atCas
      ⟨r.attempts + 1, r.succeeded, r.word, r.state⟩

/-- Model of `TripleBuffer::swap_write_retry(retries)` (lines 464-487):
the loop runs `retries + 1` times. -/
def swapWriteRetryModel (env : Nat → CasEnv) (retries : Nat) (w : Nat) :
    SwapWriteResult :=
  swapWriteGo env (retries + 1) 0 w

/-- Model of `TripleBuffer::swap_write` (lines 452-454): one retry. -/
def swapWriteModel (env : Nat → CasEnv) (w : Nat) : SwapWriteResult :=
  swapWriteRetryModel env 1 w

/-- The word evolving only by the environment's interference across `fuel`
failed attempts: what the shared word is if this call never stores. -/
def envChain (env : Nat → CasEnv) : Nat → Nat → Nat → Nat
  | 0, _, w => w
  | fuel + 1, i, w => envChain env fuel (i + 1) ((env i).1.getD w)

/-- The quiet environment: no interference, no spurious failures. -/
def quietEnv : Nat → CasEnv := fun _ => (none, false)

/-- Slot access: the Rust code indexes the fixed `[UnsafeCell<T>; 3]` array
with a role field. Under the disjointness invariant the index is always
< 3; the `% 3` makes the access total in the model. -/
def slotIdx (n : Nat) : Fin 3 :=
  ⟨n % 3, Nat.mod_lt n (by decide)⟩

/-- Whole-system state for the guard-level scenarios: the packed word, the
three payload slots, and the writer-local / reader-local borrow counters
(`borrowers` fields of `TripleBufferWriter` / `TripleBufferReader`). -/
structure TBSys (α : Type) where
  word : Nat
  slots : Fin 3 → α
  wBorrowers : Nat
  rBorrowers : Nat

/-- Factory `triple_buffer(initial)` / `TripleBuffer::new` (lines 151-167, 347-357):
all three slots hold copies of the initial value, the word encodes
`BufferState::new`, both borrow counters are zero. -/
def TBSys.init (a : α) : TBSys α :=
  { word := BufferState.new.encode
    slots := fun _ => a
    wBorrowers := 0
    rBorrowers := 0 }

/-- Method `TripleBufferWriter::write` (lines 554-561): read the current state;
panic (`none`) when a write guard is still outstanding; otherwise bump the
counter and hand out a guard bound to `write_idx` as read at this call. -/
def TBSys.writeAcquire (sys : TBSys α) : Option (Nat × TBSys α) :=
  let state := BufferState.decode sys.word
  if sys.wBorrowers > 0 then none
  else some (state.write_idx, { sys with wBorrowers := sys.wBorrowers + 1 })

/-- Storing through a `WriteHandle` (`DerefMut`, lines 819-832): mutate the
slot the guard is bound to. -/
def TBSys.writeStore (sys : TBSys α) (slot : Nat) (a : α) : TBSys α :=
  { sys with slots := Function.update sys.slots (slotIdx slot) a }

/-- Dropping a `WriteHandle` (`drop_handle`, lines 575-578): decrement the
counter, then `swap_write`. In this single-threaded scenario model the CAS
runs under the quiet environment and succeeds on the first attempt. -/
def TBSys.writeRelease (sys : TBSys α) : TBSys α :=
  { sys with
    wBorrowers := sys.wBorrowers - 1
    word := (swapWriteModel quietEnv sys.word).word }

/-- Method `TripleBufferReader::read` (lines 666-676): with no guards outstanding,
`try_swap_read` (quiet environment here); otherwise reuse the current
state. Bump the counter and bind the guard to the resulting `read_idx`. -/
def TBSys.readAcquire (sys : TBSys α) : Nat × TBSys α :=
  if sys.rBorrowers = 0 then
    let r := trySwapReadModel (none, false) sys.word
    (r.state.read_idx,
      { sys with word := r.word, rBorrowers := sys.rBorrowers + 1 })
  else
    let state := BufferState.decode sys.word
    (state.read_idx, { sys with rBorrowers := sys.rBorrowers + 1 })

/-- Reading through a `ReadHandle` (`Deref`, lines 739-754): observe the
slot the guard is bound to. -/
def TBSys.readObserve (sys : TBSys α) (slot : Nat) : α :=
  sys.slots (slotIdx slot)

/-- Dropping a `ReadHandle` (`drop_handle`, lines 690-693): decrement. -/
def TBSys.readRelease (sys : TBSys α) : TBSys α :=
  { sys with rBorrowers := sys.rBorrowers - 1 }

/-- Shared-word transitions: a successful publish CAS applies
`swapWriteNext`; a successful advance CAS applies `advanceNext` and is
only attempted when the state is dirty. Failed CAS attempts leave the word
unchanged and are covered by reflexive-transitive closure. -/
inductive TBStep : BufferState → BufferState → Prop
  | publish (s : BufferState) : TBStep s (swapWriteNext s)
  | advance (s : BufferState) (hd : s.dirty = true) : TBStep s (advanceNext s)

/-- States of the shared word reachable from a freshly created core by any
sequence of `publish` / `try_advance` calls. -/
def TBReach (s : BufferState) : Prop :=
  Relation.ReflTransGen TBStep BufferState.new s

/-- The slot-disjointness invariant: the three role fields are below 3 and
pairwise distinct. -/
def SlotInv (s : BufferState) : Prop :=
  s.read_idx < 3 ∧ s.ready_idx < 3 ∧ s.write_idx < 3 ∧
    s.read_idx ≠ s.ready_idx ∧ s.read_idx ≠ s.write_idx ∧
    s.ready_idx ≠ s.write_idx

/-!
Producer/consumer interleaving model for the temporal property.

One producer repeatedly runs `write(); store; drop` and one consumer
repeatedly runs `read(); observe; drop`.  Only the CAS operations and the
slot accesses touch shared state; the borrow counters are thread-local, so
the shared-state effect of each call collapses to:

* a store into the slot named by the current `write_idx` (stable between
  the producer's publishes, since `try_swap_read` never changes
  `write_idx`);
* a publish that either applies `swapWriteNext` to the current word (the
  CAS that succeeded necessarily saw the current word) or, after its
  bounded retries all fail, changes nothing;
* a read acquisition that either applies `advanceNext` (successful CAS,
  only attempted when dirty) or binds the guard to the current `read_idx`
  (covers both the clean fast path and a failed CAS: the `read_idx` of the
  stale loaded word equals the current one because a publish never changes
  `read_idx`);
* an observation of the slot named by the guard.

`stamp` records which write last filled each slot (0 = the initial value)
and `obsStamps` the stamps of the values observed, newest first; both are
ghost instrumentation.  The producer's `k`-th store writes `v k`, with
`v 0` the initial value of all three slots.
-/

/-- Configuration of the producer/consumer interleaving model. -/
structure PCConfig where
  bs : BufferState
  slots : Fin 3 → Nat
  stamp : Fin 3 → Nat
  pCnt : Nat
  pPh : Bool
  cPh : Bool
  rslot : Nat
  obsVals : List Nat
  obsStamps : List Nat

/-- Initial configuration: fresh core, all slots hold `v 0`. -/
def PCConfig.init (v : Nat → Nat) : PCConfig :=
  { bs := BufferState.new
    slots := fun _ => v 0
    stamp := fun _ => 0
    pCnt := 0
    pPh := false
    cPh := false
    rslot := 0
    obsVals := []
    obsStamps := [] }

/-- Atomic steps of the interleaved producer/consumer system. -/
inductive PCStep (v : Nat → Nat) : PCConfig → PCConfig → Prop
  | store (c : PCConfig) (h : c.pPh = false) :
      PCStep v c
        { c with
          slots := Function.update c.slots (slotIdx c.bs.write_idx)
            (v (c.pCnt + 1))
          stamp := Function.update c.stamp (slotIdx c.bs.write_idx)
            (c.pCnt + 1)
          pCnt := c.pCnt + 1
          pPh := true }
  | publishOk (c : PCConfig) (h : c.pPh = true) :
      PCStep v c { c with bs := swapWriteNext c.bs, pPh := false }
  | publishFail (c : PCConfig) (h : c.pPh = true) :
      PCStep v c { c with pPh := false }
  | acquireAdv (c : PCConfig) (h : c.cPh = false) (hd : c.bs.dirty = true) :
      PCStep v c
        { c with
          bs := advanceNext c.bs
          cPh := true
          rslot := (advanceNext c.bs).read_idx }
  | acquireCur (c : PCConfig) (h : c.cPh = false) :
      PCStep v c { c with cPh := true, rslot := c.bs.read_idx }
  | observe (c : PCConfig) (h : c.cPh = true) :
      PCStep v c
        { c with
          obsVals := c.slots (slotIdx c.rslot) :: c.obsVals
          obsStamps := c.stamp (slotIdx c.rslot) :: c.obsStamps }
  | release (c : PCConfig) (h : c.cPh = true) :
      PCStep v c { c with cPh := false }

/-- Configurations reachable under some interleaving. -/
def PCReach (v : Nat → Nat) (c : PCConfig) : Prop :=
  Relation.ReflTransGen (PCStep v) (PCConfig.init v) c

/-- Invariant of the interleaving model. -/
def PCInv (v : Nat → Nat) (c : PCConfig) : Prop :=
  SlotInv c.bs ∧
    (∀ i, c.stamp i ≤ c.pCnt) ∧
    (c.bs.dirty = true →
      c.stamp (slotIdx c.bs.read_idx) ≤ c.stamp (slotIdx c.bs.ready_idx)) ∧
    (c.pPh = true → c.stamp (slotIdx c.bs.write_idx) = c.pCnt) ∧
    (c.cPh = true → c.rslot = c.bs.read_idx) ∧
    (∀ y ∈ c.obsStamps, y ≤ c.stamp (slotIdx c.bs.read_idx)) ∧
    List.Pairwise (fun a b => b ≤ a) c.obsStamps ∧
    (∀ i, c.slots i = v (c.stamp i)) ∧
    c.obsVals = c.obsStamps.map v

/-! Helper lemmas about decoding. -/

/-- Rewriting `decode` with divisions and remainders. -/
lemma BufferState.decode_eq_div_mod (w : Nat) :
    BufferState.decode w =
      { read_idx := w % 16, ready_idx := w / 16 % 16,
        write_idx := w / 256 % 16, dirty := w / 4096 % 16 == 1 } := by
  have h15 : (0xF : Nat) = 2 ^ 4 - 1 := by norm_num
  unfold BufferState.decode
  rw [h15, Nat.shiftRight_eq_div_pow, Nat.shiftRight_eq_div_pow,
    Nat.shiftRight_eq_div_pow, Nat.and_pow_two_sub_one_eq_mod,
    Nat.and_pow_two_sub_one_eq_mod, Nat.and_pow_two_sub_one_eq_mod,
    Nat.and_pow_two_sub_one_eq_mod]

/-- C9: decoding never looks above bit 15. -/
theorem decode_ignores_high_bits (w : Nat) (_hw : w < 2 ^ 64) :
    BufferState.decode w = BufferState.decode (w &&& 0xFFFF) := by
  have hmask : w &&& 0xFFFF = w % 65536 := by
    have h16 : (0xFFFF : Nat) = 2 ^ 16 - 1 := by norm_num
    rw [h16, Nat.and_pow_two_sub_one_eq_mod]
  rw [hmask, BufferState.decode_eq_div_mod, BufferState.decode_eq_div_mod]
  have h1 : w % 65536 % 16 = w % 16 := by omega
  have h2 : w % 65536 / 16 % 16 = w / 16 % 16 := by omega
  have h3 : w % 65536 / 256 % 16 = w / 256 % 16 := by omega
  have h4 : w % 65536 / 4096 % 16 = w / 4096 % 16 := by omega
  rw [h1, h2, h3, h4]

theorem decode_ignores_high_bits_witness :
    (0xFFFFFFFFFFFF1321 : Nat) < 2 ^ 64 ∧
      BufferState.decode 0xFFFFFFFFFFFF1321 =
        BufferState.decode (0xFFFFFFFFFFFF1321 &&& 0xFFFF) :=
  ⟨by norm_num, decode_ignores_high_bits 0xFFFFFFFFFFFF1321 (by norm_num)⟩

/-- C10: `decode` reports dirty only when the dirty nibble is exactly 1. -/
theorem decode_dirty_requires_nibble_one (w : Nat)
    (h : 2 ≤ (w >>> 12) &&& 0xF) : (BufferState.decode w).dirty = false := by
  simp only [BufferState.decode]
  rw [beq_eq_false_iff_ne]
  omega

theorem decode_dirty_requires_nibble_one_witness :
    2 ≤ ((0x2000 : Nat) >>> 12) &&& 0xF ∧
      (BufferState.decode 0x2000).dirty = false :=
  ⟨by decide, decode_dirty_requires_nibble_one 0x2000 (by decide)⟩

/-- C4: round-trip on every state whose role fields are a permutation of
`{0,1,2}`. -/
theorem decode_encode_roundtrip (s : BufferState) (h : SlotInv s) :
    BufferState.decode s.encode = s := by
  obtain ⟨r, ry, w, d⟩ := s
  obtain ⟨h1, h2, h3, -, -, -⟩ := h
  interval_cases r <;> interval_cases ry <;> interval_cases w <;>
    cases d <;> decide

theorem decode_encode_roundtrip_witness :
    SlotInv { read_idx := 2, ready_idx := 0, write_idx := 1, dirty := true } ∧
      BufferState.decode
        (BufferState.encode
          { read_idx := 2, ready_idx := 0, write_idx := 1, dirty := true }) =
        { read_idx := 2, ready_idx := 0, write_idx := 1, dirty := true } :=
  ⟨by unfold SlotInv; decide,
    decode_encode_roundtrip _ (by unfold SlotInv; decide)⟩

/-- C2: a successful publish CAS installs exactly the candidate state:
`write_idx` and `ready_idx` swapped, `dirty` set, `read_idx` untouched.
With the quiet environment the first attempt succeeds. -/
theorem publish_success_frame (s : BufferState) (w : Nat) :
    swapWriteModel quietEnv w =
      ⟨1, true, (swapWriteNext (BufferState.decode w)).encode,
        swapWriteNext (BufferState.decode w)⟩ ∧
    (swapWriteNext s).write_idx = s.ready_idx ∧
    (swapWriteNext s).ready_idx = s.write_idx ∧
    (swapWriteNext s).dirty = true ∧
    (swapWriteNext s).read_idx = s.read_idx := by
  refine ⟨?_, rfl, rfl, rfl, rfl⟩
  simp [swapWriteModel, swapWriteRetryModel, swapWriteGo, quietEnv]

/-- C3: `try_swap_read` returns the current state untouched when clean,
makes exactly one CAS attempt when dirty, installs the advanced state on
success, and on failure returns the loaded state while storing nothing
(the word holds only what the environment put there). -/
theorem try_advance_single_attempt (env : CasEnv) (w : Nat) :
    (trySwapReadModel env w).attempts ≤ 1 ∧
    ((BufferState.decode w).dirty = false →
      trySwapReadModel env w = ⟨0, w, BufferState.decode w⟩) ∧
    ((BufferState.decode w).dirty = true →
      (trySwapReadModel env w).attempts = 1 ∧
      (env.1.getD w = w ∧ env.2 = false →
        trySwapReadModel env w =
          ⟨1, (advanceNext (BufferState.decode w)).encode,
            advanceNext (BufferState.decode w)⟩) ∧
      (¬(env.1.getD w = w ∧ env.2 = false) →
        trySwapReadModel env w = ⟨1, env.1.getD w, BufferState.decode w⟩)) := by
  by_cases hd : (BufferState.decode w).dirty = false
  · refine ⟨?_, fun _ => ?_, fun hcon => absurd hcon (by simp [hd])⟩ <;>
      simp [trySwapReadModel, hd]
  · have hd' : (BufferState.decode w).dirty = true := by
      revert hd; cases (BufferState.decode w).dirty <;> simp
    by_cases hc : env.1.getD w = w ∧ env.2 = false
    · refine ⟨?_, fun hcon => absurd hd' (by simp [hcon]), fun _ =>
        ⟨?_, fun _ => ?_, fun hn => absurd hc hn⟩⟩ <;>
        simp [trySwapReadModel, hd', hc]
    · refine ⟨?_, fun hcon => absurd hd' (by simp [hcon]), fun _ =>
        ⟨?_, fun hy => absurd hy hc, fun _ => ?_⟩⟩ <;>
        simp [trySwapReadModel, hd', hc]

/-! `swap_write` bounded retry. -/

/-- Per-fuel behaviour of the retry loop: at most `fuel` CAS attempts, and
when no attempt succeeds this call stores nothing — the final word is the
chain of the environment's interferences and the returned state is its
decode (the final re-load of lines 485-486). -/
lemma swapWriteGo_spec (env : Nat → CasEnv) :
    ∀ fuel i w,
      (swapWriteGo env fuel i w).attempts ≤ fuel ∧
      ((swapWriteGo env fuel i w).succeeded = false →
        (swapWriteGo env fuel i w).word = envChain env fuel i w ∧
        (swapWriteGo env fuel i w).state =
          BufferState.decode (envChain env fuel i w)) := by
  intro fuel
  induction fuel with
  | zero => intro i w; simp [swapWriteGo, envChain]
  | succ fuel ih =>
    intro i w
    by_cases hc : (env i).1.getD w = w ∧ (env i).2 = false
    · simp [swapWriteGo, hc]
    · have hrec := ih (i + 1) ((env i).1.getD w)
      simp only [swapWriteGo, if_neg hc]
      refine ⟨by omega, fun hs => ?_⟩
      have := hrec.2 hs
      simp only [envChain]
      exact this

/-- C5 (amended): `swap_write` makes at most two CAS attempts; when both
fail it applies no change to the shared word (the word is exactly what the
environment's interference made it) and returns the decode of the word as
freshly re-loaded after the final attempt. -/
theorem swap_write_bounded_attempts_no_store (env : Nat → CasEnv) (w : Nat) :
    (swapWriteModel env w).attempts ≤ 2 ∧
    ((swapWriteModel env w).succeeded = false →
      (swapWriteModel env w).word = envChain env 2 0 w ∧
      (swapWriteModel env w).state =
        BufferState.decode (envChain env 2 0 w)) :=
  swapWriteGo_spec env 2 0 w

theorem swap_write_bounded_attempts_no_store_witness :
    (swapWriteModel quietEnv 0x210).attempts ≤ 2 ∧
    ((swapWriteModel quietEnv 0x210).succeeded = false →
      (swapWriteModel quietEnv 0x210).word = envChain quietEnv 2 0 0x210 ∧
      (swapWriteModel quietEnv 0x210).state =
        BufferState.decode (envChain quietEnv 2 0 0x210)) :=
  swap_write_bounded_attempts_no_store quietEnv 0x210

/-- A contending reader: it rewrites the word before each of the writer's
CAS attempts, so both attempts fail. -/
def contendEnv : Nat → CasEnv :=
  fun i => if i = 0 then (some 0x102, false) else (some 0x021, false)

/-- C5 counterexample: under contention making both CAS attempts fail, the
returned state is NOT the stale pre-attempt state (`decode 0x210`): the
code re-loads after the loop and returns the fresh state installed by the
reader. -/
theorem swap_write_stale_return_cex :
    (swapWriteModel contendEnv 0x210).succeeded = false ∧
    (swapWriteModel contendEnv 0x210).state ≠ BufferState.decode 0x210 := by
  decide

/-- C7: `write()` fails (panics) exactly when the writer's outstanding
guard counter is nonzero; otherwise it increments the counter and hands
out a guard bound to the `write_idx` read at the moment of the call.
(`read()` has no failure path at all: `readAcquire` is a total function.) -/
theorem write_misuse_panics_iff {α : Type} (sys : TBSys α) :
    sys.writeAcquire =
      if sys.wBorrowers = 0 then
        some ((BufferState.decode sys.word).write_idx,
          { sys with wBorrowers := sys.wBorrowers + 1 })
      else none := by
  unfold TBSys.writeAcquire
  rcases Nat.eq_zero_or_pos sys.wBorrowers with h | h
  · simp [h]
  · simp [h, Nat.pos_iff_ne_zero.mp h]

/-- C6: freshly created buffer holding 0; a read guard observes 0; a full
write-and-drop of 42 while that guard is open does not change what it
observes; after dropping everything a new `read()` observes 42. -/
theorem isolation_while_reading_scenario :
    let s0 : TBSys Nat := TBSys.init 0
    let r1 := s0.readAcquire
    let w1 := r1.2.writeAcquire
    r1.2.readObserve r1.1 = 0 ∧
    w1.isSome = true ∧
    (let g := w1.getD (0, r1.2)
     let s4 := (g.2.writeStore g.1 42).writeRelease
     s4.readObserve r1.1 = 0 ∧
     (let r2 := s4.readRelease.readAcquire
      r2.2.readObserve r2.1 = 42)) := by
  decide

/-! Slot disjointness of all reachable shared states. -/

/-- Each shared-state transition preserves slot disjointness. -/
lemma tbStep_slotInv {s s' : BufferState} (h : SlotInv s)
    (hs : TBStep s s') : SlotInv s' := by
  obtain ⟨h1, h2, h3, h4, h5, h6⟩ := h
  cases hs with
  | publish => exact ⟨h1, h3, h2, h5, h4, h6.symm⟩
  | advance hd => exact ⟨h2, h1, h3, h4.symm, h6, h5⟩

/-- C1: every reachable state has pairwise distinct role fields, which
therefore form the set `{0, 1, 2}`. -/
theorem slot_disjointness_reachable (s : BufferState) (h : TBReach s) :
    (s.read_idx ≠ s.ready_idx ∧ s.read_idx ≠ s.write_idx ∧
      s.ready_idx ≠ s.write_idx) ∧
    ({s.read_idx, s.ready_idx, s.write_idx} : Finset ℕ) = {0, 1, 2} := by
  have hinv : SlotInv s := by
    unfold TBReach at h
    induction h with
    | refl => unfold SlotInv BufferState.new; decide
    | tail _ hst ih => exact tbStep_slotInv ih hst
  obtain ⟨r, ry, w, d⟩ := s
  obtain ⟨h1, h2, h3, h4, h5, h6⟩ := hinv
  dsimp only at h1 h2 h3 h4 h5 h6 ⊢
  refine ⟨⟨h4, h5, h6⟩, ?_⟩
  interval_cases r <;> interval_cases ry <;> interval_cases w <;>
    first | rfl | decide | omega

theorem slot_disjointness_reachable_witness :
    TBReach BufferState.new ∧
      ((BufferState.new.read_idx ≠ BufferState.new.ready_idx ∧
        BufferState.new.read_idx ≠ BufferState.new.write_idx ∧
        BufferState.new.ready_idx ≠ BufferState.new.write_idx) ∧
      ({BufferState.new.read_idx, BufferState.new.ready_idx,
        BufferState.new.write_idx} : Finset ℕ) = {0, 1, 2}) :=
  ⟨Relation.ReflTransGen.refl,
    slot_disjointness_reachable BufferState.new Relation.ReflTransGen.refl⟩

/-! Invariant of the producer/consumer interleaving model. -/

lemma slotIdx_ne {a b : Nat} (ha : a < 3) (hb : b < 3) (hab : a ≠ b) :
    slotIdx a ≠ slotIdx b := by
  simp only [slotIdx, Ne, Fin.mk.injEq, Nat.mod_eq_of_lt ha,
    Nat.mod_eq_of_lt hb]
  exact hab

/-- Every step of the interleaved system preserves the invariant. -/
lemma pcStep_inv {v : Nat → Nat} {c c' : PCConfig} (h : PCInv v c)
    (hs : PCStep v c c') : PCInv v c' := by
  obtain ⟨⟨b1, b2, b3, b4, b5, b6⟩, hstamp, hdirty, hpub, hcph, hobs, hpw,
    hslots, hmap⟩ := h
  cases hs with
  | store hph =>
    unfold PCInv
    dsimp only
    refine ⟨⟨b1, b2, b3, b4, b5, b6⟩, ?_, ?_, ?_, ?_, ?_, hpw, ?_, hmap⟩
    · intro i
      by_cases hi : i = slotIdx c.bs.write_idx
      · subst hi
        rw [Function.update_same]
      · rw [Function.update_noteq hi]
        exact (hstamp i).trans (Nat.le_succ _)
    · intro hd
      rw [Function.update_noteq (slotIdx_ne b1 b3 b5),
        Function.update_noteq (slotIdx_ne b2 b3 b6)]
      exact hdirty hd
    · intro _
      rw [Function.update_same]
    · exact hcph
    · intro y hy
      rw [Function.update_noteq (slotIdx_ne b1 b3 b5)]
      exact hobs y hy
    · intro i
      by_cases hi : i = slotIdx c.bs.write_idx
      · subst hi
        rw [Function.update_same, Function.update_same]
      · rw [Function.update_noteq hi, Function.update_noteq hi]
        exact hslots i
  | publishOk hph =>
    unfold PCInv swapWriteNext
    dsimp only
    refine ⟨⟨b1, b3, b2, b5, b4, b6.symm⟩, hstamp, ?_, ?_, hcph, hobs, hpw,
      hslots, hmap⟩
    · intro _
      rw [hpub hph]
      exact hstamp _
    · intro hx
      simp at hx
  | publishFail hph =>
    unfold PCInv
    dsimp only
    refine ⟨⟨b1, b2, b3, b4, b5, b6⟩, hstamp, hdirty, ?_, hcph, hobs, hpw,
      hslots, hmap⟩
    intro hx
    simp at hx
  | acquireAdv hcp hd =>
    unfold PCInv advanceNext
    dsimp only
    refine ⟨⟨b2, b1, b3, b4.symm, b6, b5⟩, hstamp, ?_, hpub, fun _ => rfl,
      ?_, hpw, hslots, hmap⟩
    · intro hx
      simp at hx
    · intro y hy
      exact (hobs y hy).trans (hdirty hd)
  | acquireCur hcp =>
    unfold PCInv
    dsimp only
    exact ⟨⟨b1, b2, b3, b4, b5, b6⟩, hstamp, hdirty, hpub, fun _ => rfl,
      hobs, hpw, hslots, hmap⟩
  | observe hcp =>
    unfold PCInv
    dsimp only
    refine ⟨⟨b1, b2, b3, b4, b5, b6⟩, hstamp, hdirty, hpub, hcph, ?_, ?_,
      hslots, ?_⟩
    · intro y hy
      rcases List.mem_cons.mp hy with rfl | hy'
      · rw [hcph hcp]
      · exact hobs y hy'
    · refine List.pairwise_cons.mpr ⟨fun y hy => ?_, hpw⟩
      rw [hcph hcp]
      exact hobs y hy
    · rw [hslots _, hmap]
      rfl
  | release hcp =>
    unfold PCInv
    dsimp only
    exact ⟨⟨b1, b2, b3, b4, b5, b6⟩, hstamp, hdirty, hpub, fun hx => by
      simp at hx, hobs, hpw, hslots, hmap⟩

/-- The invariant holds at every reachable configuration. -/
lemma pcReach_inv {v : Nat → Nat} {c : PCConfig} (h : PCReach v c) :
    PCInv v c := by
  unfold PCReach at h
  induction h with
  | refl =>
    unfold PCInv PCConfig.init SlotInv BufferState.new
    dsimp only
    refine ⟨⟨?_, ?_, ?_, ?_, ?_, ?_⟩, fun i => Nat.le_refl 0, ?_, ?_, ?_,
      ?_, List.Pairwise.nil, fun i => rfl, rfl⟩ <;> decide
  | tail _ hst ih => exact pcStep_inv ih hst

/-- C8: under any interleaving of the producer loop and the consumer loop,
the consumer's observations (newest first) are monotonically decreasing —
i.e. chronologically nondecreasing — and every observed value is one the
producer put into a slot (`v 0` being the shared initial value). -/
theorem consumer_observations_monotone (v : Nat → Nat) (c : PCConfig)
    (h : PCReach v c) (hv : Monotone v) :
    List.Pairwise (fun a b => b ≤ a) c.obsVals ∧
    ∀ x ∈ c.obsVals, ∃ k, k ≤ c.pCnt ∧ x = v k := by
  obtain ⟨-, hstamp, -, -, -, hobs, hpw, -, hmap⟩ := pcReach_inv h
  constructor
  · rw [hmap]
    exact hpw.map _ (fun a b hab => hv hab)
  · intro x hx
    rw [hmap] at hx
    obtain ⟨k, hk, rfl⟩ := List.mem_map.mp hx
    exact ⟨k, (hobs k hk).trans (hstamp _), rfl⟩

theorem consumer_observations_monotone_witness :
    PCReach id (PCConfig.init id) ∧ Monotone (id : Nat → Nat) ∧
      (List.Pairwise (fun a b => b ≤ a) (PCConfig.init id).obsVals ∧
        ∀ x ∈ (PCConfig.init id).obsVals,
          ∃ k, k ≤ (PCConfig.init id).pCnt ∧ x = id k) :=
  ⟨Relation.ReflTransGen.refl, fun _ _ hab => hab,
    consumer_observations_monotone id (PCConfig.init id)
      Relation.ReflTransGen.refl (fun _ _ hab => hab)⟩
